import Mathlib

/-!
Verification development for the `claude_code_transcripts` embedding-sync and
semantic-search pipeline (`sync.py`, `search.py`, `models.py`, `embeddings.py`).

The Python code is shallowly embedded:

* Python strings are modelled as `List Char` (`PyStr`); `s[:n]` is `List.take n`,
  `s.strip()` is `pyStrip`, truthiness of a string is non-emptiness.
* The SQLAlchemy session is modelled as a pair of database states
  (`DBSession.committed` / `DBSession.current`): statements mutate `current`,
  `commit` publishes `current`, `rollback` restores `committed`.
* The sentence-transformers encoder is an opaque collaborator: a record of
  functions returning `Option` (`none` models a raised exception).  Embedding
  vectors are `List ℚ`.
* External collaborators of the sync loops (`parse_session_file`,
  `generate_html`, `fetch_session`, ...) are opaque: each session input record
  carries their outcome for that session (`Option`/`Bool` flags model raising).
* A Python function that can raise returns `... × Bool` (the `Bool` is true when
  an exception propagates out) or `Option`, with the mutated state carried along.
-/

/-- Python strings, modelled as lists of characters. -/
abbrev PyStr := List Char

/-- Python `str.strip()`: remove leading and trailing whitespace. -/
def pyStrip (s : PyStr) : PyStr :=
  ((s.dropWhile Char.isWhitespace).reverse.dropWhile Char.isWhitespace).reverse

/-- The `content` field of a logline: a plain string, structured (list/dict)
content, or missing/None. -/
inductive PyContent where
  | str (s : PyStr)
  | structured
  | null
deriving DecidableEq

/-- A logline of a parsed session (`session_data["loglines"]` entry). -/
structure Logline where
  content : PyContent
deriving DecidableEq

/-- Parsed session data (`session_data` dict with its `loglines` list). -/
structure SessionData where
  loglines : List Logline
deriving DecidableEq

/-- The string carried by plain-string content (empty for non-string content). -/
def contentStr : PyContent → PyStr
  | .str s => s
  | _ => []

/-- Source of a conversation (`'local'` or `'web'`). -/
inductive Source where
  | local
  | web
deriving DecidableEq

/-- A row of the `conversations` table (`models.Conversation`). -/
structure ConversationRow where
  id : Nat
  session_id : PyStr
  source : Source
  last_updated : Nat
  message_count : Nat
  html_path : PyStr
  first_message : Option PyStr
  created_at : Nat
deriving DecidableEq

/-- Embedding vectors (pgvector values), modelled as rational lists. -/
abbrev Vec := List ℚ

/-- A row of `conversation_embeddings` (`models.ConversationEmbedding`). -/
structure ConvEmbRow where
  conversation_id : Nat
  summary_text : PyStr
  embedding : Vec
deriving DecidableEq

/-- A row of `message_embeddings` (`models.MessageEmbedding`). -/
structure MsgEmbRow where
  conversation_id : Nat
  message_index : Nat
  message_text : PyStr
  embedding : Vec
  page_number : Nat
deriving DecidableEq

/-- The relational store: the three tables plus the autoincrement counter for
`conversations.id`. -/
structure DBState where
  conversations : List ConversationRow
  convEmbeddings : List ConvEmbRow
  msgEmbeddings : List MsgEmbRow
  nextId : Nat
deriving DecidableEq

/-- A SQLAlchemy session: the committed store and the current (uncommitted)
view of the open transaction. -/
structure DBSession where
  committed : DBState
  current : DBState
deriving DecidableEq

/-- `db_session.commit()`: publish the current state. -/
def DBSession.commit (s : DBSession) : DBSession := ⟨s.current, s.current⟩

/-- `db_session.rollback()`: discard uncommitted changes. -/
def DBSession.rollback (s : DBSession) : DBSession := ⟨s.committed, s.committed⟩

/-- The embedding service (`embeddings.EmbeddingService`), an opaque
collaborator; `none` models a raised exception. -/
structure EmbeddingService where
  encode_single : PyStr → Option Vec
  encode_batch : List PyStr → Option (List Vec)

/-- `sync.needs_update`: a new session always needs an update; an existing one
iff `len(session_data.get("loglines", []))` differs from the stored
`message_count`. -/
def needs_update (existing : Option ConversationRow) (session_data : SessionData) : Bool :=
  match existing with
  | none => true
  | some c => session_data.loglines.length ≠ c.message_count

/-- Loop body of `sync.extract_user_queries`: walk the loglines carrying the
running `message_index` (position over all loglines) and `prompt_count`
(position among eligible messages). -/
def extractUserQueriesGo (prompts_per_page : Nat) :
    List Logline → Nat → Nat → List (Nat × PyStr × Nat)
  | [], _, _ => []
  | lg :: rest, message_index, prompt_count =>
    match lg.content with
    | .str s =>
      if pyStrip s ≠ [] then
        (message_index, s.take 1000, prompt_count / prompts_per_page + 1) ::
          extractUserQueriesGo prompts_per_page rest (message_index + 1) (prompt_count + 1)
      else
        extractUserQueriesGo prompts_per_page rest (message_index + 1) prompt_count
    | _ => extractUserQueriesGo prompts_per_page rest (message_index + 1) prompt_count

/-- `sync.extract_user_queries`: the `(message_index, text[:1000], page_number)`
tuples of the eligible (plain-string, non-whitespace) loglines. -/
def extract_user_queries (session_data : SessionData) (prompts_per_page : Nat := 5) :
    List (Nat × PyStr × Nat) :=
  extractUserQueriesGo prompts_per_page session_data.loglines 0 0

/-- Whether a logline is an eligible user query: plain-string content with
non-whitespace characters. -/
def isEligible (lg : Logline) : Bool :=
  match lg.content with
  | .str s => pyStrip s ≠ []
  | _ => false

/-- Number of eligible user-query messages of a session.  This follows the
wording of the specification ("current eligible message count"), for comparison
with the `needs_update` code, which counts all loglines. -/
def eligibleMessageCount (session_data : SessionData) : Nat :=
  (session_data.loglines.filter isEligible).length

/-- The output of `extract_user_queries` as described by the specification:
one tuple per eligible logline, in order, whose `message_index` is the
logline's position in the full logline sequence, whose text is the content
truncated to 1000 characters, and whose page number is
`(position-among-eligible / prompts_per_page) + 1`. -/
def extractUserQueriesSpec (session_data : SessionData) (prompts_per_page : Nat) :
    List (Nat × PyStr × Nat) :=
  (((session_data.loglines.enum.filter fun p => isEligible p.2).enum).map
    fun q => (q.2.1, (contentStr q.2.2.content).take 1000, q.1 / prompts_per_page + 1))

/-- Delete of the two embedding tables' rows of one conversation
(`store_embeddings` lines 91–96). -/
def deleteEmbeddingsFor (conversation_id : Nat) (st : DBState) : DBState :=
  { st with
    convEmbeddings := st.convEmbeddings.filter fun r => r.conversation_id ≠ conversation_id,
    msgEmbeddings := st.msgEmbeddings.filter fun r => r.conversation_id ≠ conversation_id }

/-- Message-batch half of `store_embeddings` (lines 108–123): batch-encode the
texts, insert one `MessageEmbedding` per `(index, text, page)` tuple, commit.
Returns the resulting session and whether an exception propagated. -/
def storeMessageEmbeddings (svc : EmbeddingService) (conversation_id : Nat)
    (user_queries : List (Nat × PyStr × Nat)) (s : DBSession) : DBSession × Bool :=
  if user_queries.isEmpty then (s.commit, false)
  else
    match svc.encode_batch (user_queries.map fun q => q.2.1) with
    | none => (s, true)
    | some embs =>
      let rows := (user_queries.zip embs).map fun p =>
        MsgEmbRow.mk conversation_id p.1.1 (p.1.2.1.take 500) p.2 p.1.2.2
      (DBSession.commit
        ⟨s.committed, { s.current with msgEmbeddings := s.current.msgEmbeddings ++ rows }⟩,
       false)

/-- `sync.store_embeddings`: delete the conversation's existing embedding rows,
insert a `ConversationEmbedding` when `summary_text` is non-empty (text
truncated to 500 chars), insert one `MessageEmbedding` per user query (same
truncation), and commit.  A `none` from the encoder models a raised exception:
the pending deletes (and a possibly already-added summary row) stay uncommitted
in `current`, exactly as in SQLAlchemy. -/
def store_embeddings (svc : EmbeddingService) (conversation_id : Nat)
    (summary_text : PyStr) (user_queries : List (Nat × PyStr × Nat))
    (s : DBSession) : DBSession × Bool :=
  let cur0 := deleteEmbeddingsFor conversation_id s.current
  if summary_text.isEmpty then
    storeMessageEmbeddings svc conversation_id user_queries ⟨s.committed, cur0⟩
  else
    match svc.encode_single summary_text with
    | none => (⟨s.committed, cur0⟩, true)
    | some emb =>
      let cur1 := { cur0 with
        convEmbeddings :=
          cur0.convEmbeddings ++ [ConvEmbRow.mk conversation_id (summary_text.take 500) emb] }
      storeMessageEmbeddings svc conversation_id user_queries ⟨s.committed, cur1⟩

/-- Lookup of a conversation by session id
(`db_session.query(Conversation).filter_by(session_id=...).first()`).  Queries
run in the open transaction and see uncommitted changes, hence `current`. -/
def findConv (st : DBState) (session_id : PyStr) : Option ConversationRow :=
  st.conversations.find? fun c => c.session_id = session_id

/-- Lookup of a conversation by primary key (the `JOIN conversations c ON
...conversation_id = c.id` of the search queries). -/
def findConvById (st : DBState) (conversation_id : Nat) : Option ConversationRow :=
  st.conversations.find? fun c => c.id = conversation_id

/-- `os.path.join(storage_path, session_id)`. -/
def pathJoin (a b : PyStr) : PyStr := a ++ '/' :: b

/-- Update-or-create of the `Conversation` row (sync loop lines 185–202 /
301–318): update the existing row in place, or add a new row whose id is
assigned by the flush.  Returns the new state and the conversation id. -/
def upsertConversation (st : DBState) (existing : Option ConversationRow)
    (session_id : PyStr) (src : Source) (now : Nat) (message_count : Nat)
    (html_path : PyStr) (first_message : Option PyStr) : DBState × Nat :=
  match existing with
  | some c =>
    ({ st with conversations := st.conversations.map fun r =>
        if r.id = c.id then
          { r with last_updated := now, message_count := message_count,
                   html_path := html_path, first_message := first_message }
        else r },
     c.id)
  | none =>
    ({ st with
        conversations := st.conversations ++
          [ConversationRow.mk st.nextId session_id src now message_count
            html_path first_message now],
        nextId := st.nextId + 1 },
     st.nextId)

/-- `first_message = summary[:200] if summary else None` of
`sync_local_sessions` (line 182). -/
def localFirstMessage (summary : Option PyStr) : Option PyStr :=
  match summary with
  | some sm => if sm.isEmpty then none else some (sm.take 200)
  | none => none

/-- First-message extraction of `sync_web_sessions` (lines 293–298): the first
logline whose content is a non-empty plain string, truncated to 200 chars. -/
def webFirstMessage (loglines : List Logline) : Option PyStr :=
  (loglines.find? fun lg =>
      match lg.content with
      | .str s => ¬s.isEmpty
      | _ => false).map
    fun lg => (contentStr lg.content).take 200

/-- One `(session_path, summary)` entry of `find_local_sessions` together with
the outcomes of the opaque collaborators on it: `parsed = none` models
`parse_session_file` raising, `renderOk = false` models `generate_html`
raising, `upsertOk = false` models the database update raising before the
commit. -/
structure LocalSessionInput where
  session_id : PyStr
  summary : Option PyStr
  parsed : Option SessionData
  renderOk : Bool
  upsertOk : Bool

/-- The `Conversation` upsert of the local loop (lines 180–202): metadata
extraction (`message_count`, `first_message = summary[:200] if summary else
None`, `output_dir`) followed by `upsertConversation`. -/
def localUpsert (now : Nat) (storage_path : PyStr) (s : DBSession)
    (inp : LocalSessionInput) (session_data : SessionData) : DBState × Nat :=
  upsertConversation s.current (findConv s.current inp.session_id) inp.session_id
    Source.local now session_data.loglines.length (pathJoin storage_path inp.session_id)
    (localFirstMessage inp.summary)

/-- The guarded embedding step of the local loop (lines 206–217): after the
conversation commit, `extract_user_queries` + `store_embeddings` with
the first message (or the empty string when it is None). -/
def localEmbedStep (svc : EmbeddingService) (now : Nat) (storage_path : PyStr)
    (s : DBSession) (inp : LocalSessionInput) (session_data : SessionData) :
    DBSession × Bool :=
  store_embeddings svc (localUpsert now storage_path s inp session_data).2
    ((localFirstMessage inp.summary).getD [])
    (extract_user_queries session_data 5)
    (DBSession.commit ⟨s.committed, (localUpsert now storage_path s inp session_data).1⟩)

/-- Body of the per-session loop of `sync_local_sessions` (lines 158–223):
parse, staleness check, render, upsert + commit, then the separately guarded
embedding sync whose exceptions are only logged (no rollback in that handler).
Returns the contribution to `updated_count` and the resulting session state. -/
def processLocalSession (svc : EmbeddingService) (now : Nat) (storage_path : PyStr)
    (s : DBSession) (inp : LocalSessionInput) : Nat × DBSession :=
  match inp.parsed with
  | none => (0, s.rollback)
  | some session_data =>
    if needs_update (findConv s.current inp.session_id) session_data then
      if inp.renderOk then
        if inp.upsertOk then
          (1, (localEmbedStep svc now storage_path s inp session_data).1)
        else
          (0, DBSession.rollback
            ⟨s.committed, (localUpsert now storage_path s inp session_data).1⟩)
      else (0, s.rollback)
    else (0, s)

/-- `sync.sync_local_sessions`: a `none` session list models
`find_local_sessions` raising (the whole batch yields 0); otherwise fold the
per-session body over the batch, accumulating the updated count. -/
def sync_local_sessions (svc : EmbeddingService) (now : Nat) (storage_path : PyStr)
    (sessions : Option (List LocalSessionInput)) (s : DBSession) : Nat × DBSession :=
  match sessions with
  | none => (0, s)
  | some l =>
    l.foldl (fun acc inp =>
      (acc.1 + (processLocalSession svc now storage_path acc.2 inp).1,
       (processLocalSession svc now storage_path acc.2 inp).2)) (0, s)

/-- One entry of the `fetch_sessions` list together with the outcomes of the
opaque collaborators: `session_id = none` models a missing key, `fetched =
none` models `fetch_session` raising, and the two flags are as for the local
loop. -/
structure WebSessionInput where
  session_id : Option PyStr
  fetched : Option SessionData
  renderOk : Bool
  upsertOk : Bool

/-- The `Conversation` upsert of the web loop (lines 291–318): metadata
extraction (first plain-string logline content `[:200]`) followed by
`upsertConversation`. -/
def webUpsert (now : Nat) (storage_path : PyStr) (s : DBSession) (sid : PyStr)
    (session_data : SessionData) : DBState × Nat :=
  upsertConversation s.current (findConv s.current sid) sid Source.web now
    session_data.loglines.length (pathJoin storage_path sid)
    (webFirstMessage session_data.loglines)

/-- The guarded embedding step of the web loop (lines 322–333). -/
def webEmbedStep (svc : EmbeddingService) (now : Nat) (storage_path : PyStr)
    (s : DBSession) (sid : PyStr) (session_data : SessionData) : DBSession × Bool :=
  store_embeddings svc (webUpsert now storage_path s sid session_data).2
    ((webFirstMessage session_data.loglines).getD [])
    (extract_user_queries session_data 5)
    (DBSession.commit ⟨s.committed, (webUpsert now storage_path s sid session_data).1⟩)

/-- Body of the per-session loop of `sync_web_sessions` (lines 266–339). -/
def processWebSession (svc : EmbeddingService) (now : Nat) (storage_path : PyStr)
    (s : DBSession) (inp : WebSessionInput) : Nat × DBSession :=
  match inp.session_id with
  | none => (0, s)
  | some sid =>
    if sid.isEmpty then (0, s)
    else
      match inp.fetched with
      | none => (0, s.rollback)
      | some session_data =>
        if needs_update (findConv s.current sid) session_data then
          if inp.renderOk then
            if inp.upsertOk then
              (1, (webEmbedStep svc now storage_path s sid session_data).1)
            else
              (0, DBSession.rollback
                ⟨s.committed, (webUpsert now storage_path s sid session_data).1⟩)
          else (0, s.rollback)
        else (0, s)

/-- `sync.sync_web_sessions`: a `none` list models credential resolution or
`fetch_sessions` raising; otherwise the list is cut to `limit`
(`sessions[:limit]`) and folded as in the local loop. -/
def sync_web_sessions (svc : EmbeddingService) (now : Nat) (storage_path : PyStr)
    (sessions : Option (List WebSessionInput)) (limit : Nat) (s : DBSession) :
    Nat × DBSession :=
  match sessions with
  | none => (0, s)
  | some l =>
    (l.take limit).foldl (fun acc inp =>
      (acc.1 + (processWebSession svc now storage_path acc.2 inp).1,
       (processWebSession svc now storage_path acc.2 inp).2)) (0, s)

/-- Result kind of a search row (`match_type`). -/
inductive MatchType where
  | summary
  | message
deriving DecidableEq

/-- One result dict built by `search.search_transcripts`. -/
structure SearchResult where
  conversation_id : Nat
  text : PyStr
  session_id : PyStr
  source : Source
  first_message : Option PyStr
  similarity : ℚ
  match_type : MatchType
  page_number : Option Nat
  message_index : Option Nat
  url : PyStr
deriving DecidableEq

/-- Decimal digits of a natural number. -/
def natToPyStr (n : Nat) : PyStr := (Nat.repr n).data

/-- Python `f"{n:03d}"`: zero-pad to width 3. -/
def pad3 (n : Nat) : PyStr :=
  let s := natToPyStr n
  List.replicate (3 - s.length) '0' ++ s

/-- `f"/transcript/{session_id}"`. -/
def transcriptUrl (session_id : PyStr) : PyStr :=
  '/' :: 't' :: 'r' :: 'a' :: 'n' :: 's' :: 'c' :: 'r' :: 'i' :: 'p' :: 't' :: '/' :: session_id

/-- `f"/transcript/{sid}/page-{page:03d}.html#msg-{idx}"`. -/
def messageUrl (session_id : PyStr) (page : Nat) (idx : Nat) : PyStr :=
  transcriptUrl session_id ++
    ('/' :: 'p' :: 'a' :: 'g' :: 'e' :: '-' :: pad3 page) ++
    ('.' :: 'h' :: 't' :: 'm' :: 'l' :: '#' :: 'm' :: 's' :: 'g' :: '-' :: natToPyStr idx)

/-- Conversation-embedding sub-query of `search_transcripts` (lines 39–76):
join each `conversation_embeddings` row with its conversation, order ascending
by the vector distance to the query embedding (`ORDER BY ce.embedding <=>
:embedding`), take `limit`, and build the summary result rows
(`page_number`/`message_index` are SQL NULLs).  The storage engine's vector
distance operator is the parameter `dist`. -/
def convSubquery (dist : Vec → Vec → ℚ) (db : DBState) (query_embedding : Vec)
    (limit : Nat) : List SearchResult :=
  let joined := db.convEmbeddings.filterMap fun ce =>
    (findConvById db ce.conversation_id).map fun c => (ce, c)
  let sorted := List.insertionSort
    (fun a b => dist a.1.embedding query_embedding ≤ dist b.1.embedding query_embedding) joined
  (sorted.take limit).map fun p =>
    SearchResult.mk p.1.conversation_id p.1.summary_text p.2.session_id p.2.source
      p.2.first_message (1 - dist p.1.embedding query_embedding) MatchType.summary
      none none (transcriptUrl p.2.session_id)

/-- Message-embedding sub-query of `search_transcripts` (lines 79–120):
identical shape, carrying page number and message index through, with the
page-gated URL (`if row[7]` is Python truthiness, false at page 0). -/
def msgSubquery (dist : Vec → Vec → ℚ) (db : DBState) (query_embedding : Vec)
    (limit : Nat) : List SearchResult :=
  let joined := db.msgEmbeddings.filterMap fun me =>
    (findConvById db me.conversation_id).map fun c => (me, c)
  let sorted := List.insertionSort
    (fun a b => dist a.1.embedding query_embedding ≤ dist b.1.embedding query_embedding) joined
  (sorted.take limit).map fun p =>
    SearchResult.mk p.1.conversation_id p.1.message_text p.2.session_id p.2.source
      p.2.first_message (1 - dist p.1.embedding query_embedding) MatchType.message
      (some p.1.page_number) (some p.1.message_index)
      (if p.1.page_number ≠ 0 then messageUrl p.2.session_id p.1.page_number p.1.message_index
       else transcriptUrl p.2.session_id)

/-- `search.search_transcripts`: encode the query (a `none` models the encoder
raising), run both sub-queries against the committed store, concatenate,
stable-sort the combined list descending by similarity
(`results.sort(key=..., reverse=True)`), and truncate to `limit`. -/
def search_transcripts (svc : EmbeddingService) (dist : Vec → Vec → ℚ)
    (db : DBState) (query : PyStr) (limit : Nat) : Option (List SearchResult) :=
  (svc.encode_single query).map fun query_embedding =>
    let results := convSubquery dist db query_embedding limit ++
      msgSubquery dist db query_embedding limit
    ((List.insertionSort (fun a b => b.similarity ≤ a.similarity) results).take limit)

/-- Unfolding lemma for the `extract_user_queries` loop in terms of `enumFrom`,
`filter` and `map`. -/
theorem extractUserQueriesGo_eq (ppp : Nat) (l : List Logline) :
    ∀ (mi pc : Nat),
      extractUserQueriesGo ppp l mi pc =
        (((l.enumFrom mi).filter fun p => isEligible p.2).enumFrom pc).map
          (fun q => (q.2.1, (contentStr q.2.2.content).take 1000, q.1 / ppp + 1)) := by
  induction l with
  | nil => intro mi pc; rfl
  | cons lg rest ih =>
    intro mi pc
    cases hlg : lg.content with
    | str s =>
      by_cases hs : pyStrip s = []
      · simp [extractUserQueriesGo, hlg, hs, isEligible, List.enumFrom_cons,
          List.filter_cons, ih]
      · simp [extractUserQueriesGo, hlg, hs, isEligible, contentStr, List.enumFrom_cons,
          List.filter_cons, ih]
    | structured =>
      simp [extractUserQueriesGo, hlg, isEligible, List.enumFrom_cons, List.filter_cons, ih]
    | null =>
      simp [extractUserQueriesGo, hlg, isEligible, List.enumFrom_cons, List.filter_cons, ih]

/-- C4: `extract_user_queries(session_data, prompts_per_page)` returns one
tuple per plain-string, non-whitespace logline, in logline order, carrying the
logline's position in the full logline sequence as `message_index`, the content
truncated to 1000 characters, and
`page_number = (position-among-eligible / prompts_per_page) + 1`. -/
theorem extract_user_queries_spec_eq :
    ∀ (session_data : SessionData) (prompts_per_page : Nat),
      extract_user_queries session_data prompts_per_page =
        extractUserQueriesSpec session_data prompts_per_page := by
  intro sd ppp
  simp [extract_user_queries, extractUserQueriesSpec, extractUserQueriesGo_eq, List.enum]

/-- C2 counterexample: a session whose single logline has structured content
has eligible-message count 0 equal to the stored `message_count` 0, yet
`needs_update` returns `True` because it counts all loglines. -/
theorem needs_update_eligible_count_false :
    ¬ ((needs_update (some (ConversationRow.mk 1 ['a'] Source.local 0 0 [] none 0))
          (SessionData.mk [Logline.mk PyContent.structured]) = true) ↔
        eligibleMessageCount (SessionData.mk [Logline.mk PyContent.structured]) ≠
          (ConversationRow.mk 1 ['a'] Source.local 0 0 [] none 0).message_count) := by
  decide

/-- C2 amended: `needs_update(existing, session_data)` returns `True` when
`existing` is `None`, and otherwise returns `True` iff the total number of
loglines of `session_data` (not the eligible-message count) differs from
`existing.message_count`. -/
theorem needs_update_total_logline_count :
    ∀ (session_data : SessionData) (c : ConversationRow),
      needs_update none session_data = true ∧
        (needs_update (some c) session_data = true ↔
          session_data.loglines.length ≠ c.message_count) := by
  intro sd c
  exact ⟨rfl, by simp [needs_update]⟩

/-- C10: both sync paths pass a summary that is either empty or already
truncated to 200 characters (`summary[:200]` locally, the first plain-string
content `[:200]` on the web path), so it has length at most 200 and the
500-character truncation applied inside `store_embeddings` leaves it
unchanged. -/
theorem summary_text_within_truncation :
    ∀ (summary : Option PyStr) (loglines : List Logline),
      (((localFirstMessage summary).getD []).length ≤ 200 ∧
        ((localFirstMessage summary).getD []).take 500 = (localFirstMessage summary).getD []) ∧
      (((webFirstMessage loglines).getD []).length ≤ 200 ∧
        ((webFirstMessage loglines).getD []).take 500 = (webFirstMessage loglines).getD []) := by
  intro summary loglines
  constructor
  · cases summary with
    | none => simp [localFirstMessage]
    | some sm =>
      by_cases h : sm.isEmpty <;>
        simp [localFirstMessage, h, List.take_take, List.length_take_le]
  · unfold webFirstMessage
    cases (loglines.find? fun lg =>
        match lg.content with
        | .str s => ¬s.isEmpty
        | _ => false) with
    | none => simp
    | some lg => simp [List.take_take, List.length_take_le]

/-- Rows kept by a delete are removed by a key filter: filtering the survivors
of `≠ cid` for `= cid` yields nothing. -/
theorem filter_eq_of_filter_ne {α : Type} (f : α → Nat) (cid : Nat) (l : List α) :
    ((l.filter fun r => f r ≠ cid).filter fun r => f r = cid) = [] := by
  rw [List.filter_filter]
  apply List.filter_eq_nil_iff.mpr
  intro a _
  simp

/-- Filtering freshly inserted rows (all keyed `cid`) for `= cid` keeps them
all. -/
theorem filter_eq_of_all_eq {α : Type} (f : α → Nat) (cid : Nat) (rows : List α)
    (h : ∀ r ∈ rows, f r = cid) : (rows.filter fun r => f r = cid) = rows := by
  apply List.filter_eq_self.mpr
  intro a ha
  simp [h a ha]

/-- Key filter of a delete-then-insert table: exactly the inserted rows. -/
theorem filter_eq_append {α : Type} (f : α → Nat) (cid : Nat) (orig rows : List α)
    (h : ∀ r ∈ rows, f r = cid) :
    (((orig.filter fun r => f r ≠ cid) ++ rows).filter fun r => f r = cid) = rows := by
  rw [List.filter_append, filter_eq_of_filter_ne, filter_eq_of_all_eq f cid rows h,
    List.nil_append]

/-- Deleting by key is idempotent across an insert of rows with that key. -/
theorem filter_ne_append {α : Type} (f : α → Nat) (cid : Nat) (orig rows : List α)
    (h : ∀ r ∈ rows, f r = cid) :
    (((orig.filter fun r => f r ≠ cid) ++ rows).filter fun r => f r ≠ cid) =
      orig.filter fun r => f r ≠ cid := by
  rw [List.filter_append, List.filter_filter]
  have h2 : (rows.filter fun r => f r ≠ cid) = [] := by
    apply List.filter_eq_nil_iff.mpr
    intro a ha
    simp [h a ha]
  rw [h2, List.append_nil]
  apply List.filter_congr
  intro a _
  simp

/-- C3: after a successful `store_embeddings` call the number of
`MessageEmbedding` rows stored for the conversation equals exactly the length
of the input list (no rows survive from prior runs), and with an empty message
list and empty summary both embedding tables hold zero rows for that
conversation. -/
theorem store_embeddings_row_counts
    (svc : EmbeddingService) (cid : Nat) (summary_text : PyStr)
    (user_queries : List (Nat × PyStr × Nat)) (s : DBSession) (es : List Vec)
    (hs : summary_text = [] ∨ ∃ e, svc.encode_single summary_text = some e)
    (hb : svc.encode_batch (user_queries.map fun q => q.2.1) = some es)
    (hlen : es.length = user_queries.length) :
    (store_embeddings svc cid summary_text user_queries s).2 = false ∧
    ((store_embeddings svc cid summary_text user_queries s).1.committed.msgEmbeddings.filter
        fun m => m.conversation_id = cid).length = user_queries.length ∧
    (summary_text = [] →
      ((store_embeddings svc cid summary_text user_queries s).1.committed.convEmbeddings.filter
        fun m => m.conversation_id = cid) = []) := by
  have hrows : ∀ (cur : List MsgEmbRow),
      (((cur.filter fun r => r.conversation_id ≠ cid) ++
        ((user_queries.zip es).map fun p =>
          MsgEmbRow.mk cid p.1.1 (p.1.2.1.take 500) p.2 p.1.2.2)).filter
        fun m => m.conversation_id = cid).length = user_queries.length := by
    intro cur
    rw [filter_eq_append]
    · rw [List.length_map, List.length_zip, hlen, Nat.min_self]
    · intro r hr
      rcases List.mem_map.mp hr with ⟨p, _, rfl⟩
      rfl
  by_cases hst : summary_text.isEmpty
  · have hst' : summary_text = [] := List.isEmpty_iff.mp hst
    by_cases huq : user_queries.isEmpty
    · have huq' : user_queries = [] := List.isEmpty_iff.mp huq
      subst hst' huq'
      simp [store_embeddings, storeMessageEmbeddings, deleteEmbeddingsFor, DBSession.commit,
        filter_eq_of_filter_ne]
    · subst hst'
      simp only [store_embeddings, storeMessageEmbeddings, deleteEmbeddingsFor,
        DBSession.commit, List.isEmpty_nil, if_true, huq, if_false, hb, Bool.false_eq_true]
      refine ⟨by simp, ?_, ?_⟩
      · exact hrows _
      · intro _
        exact filter_eq_of_filter_ne _ cid _
  · rcases hs with hs' | ⟨e, he⟩
    · subst hs'
      simp at hst
    · have hne : summary_text ≠ [] := by simpa [List.isEmpty_iff] using hst
      by_cases huq : user_queries.isEmpty
      · have huq' : user_queries = [] := List.isEmpty_iff.mp huq
        subst huq'
        simp [store_embeddings, storeMessageEmbeddings, deleteEmbeddingsFor, DBSession.commit,
          hst, he, filter_eq_of_filter_ne, hne]
      · simp only [store_embeddings, storeMessageEmbeddings, deleteEmbeddingsFor,
          DBSession.commit, hst, if_false, he, huq, hb]
        refine ⟨rfl, ?_, ?_⟩
        · exact hrows _
        · intro hcontra
          subst hcontra
          simp at hst

/-- Deleting by key twice is the same as deleting once. -/
theorem filter_ne_idem {α : Type} (f : α → Nat) (cid : Nat) (l : List α) :
    ((l.filter fun r => f r ≠ cid).filter fun r => f r ≠ cid) = l.filter fun r => f r ≠ cid := by
  rw [List.filter_filter]
  apply List.filter_congr
  intro a _
  simp

/-- C8: re-running `store_embeddings` with identical inputs is idempotent —
given the encoder succeeds, the second call raises no exception and leaves the
database session in exactly the state the first call produced (same rows, same
texts, indices and page numbers). -/
theorem store_embeddings_idempotent
    (svc : EmbeddingService) (cid : Nat) (summary_text : PyStr)
    (user_queries : List (Nat × PyStr × Nat)) (s : DBSession)
    (hs : summary_text = [] ∨ ∃ e, svc.encode_single summary_text = some e)
    (hb : user_queries = [] ∨
      ∃ es, svc.encode_batch (user_queries.map fun q => q.2.1) = some es) :
    store_embeddings svc cid summary_text user_queries
        (store_embeddings svc cid summary_text user_queries s).1 =
      store_embeddings svc cid summary_text user_queries s := by
  by_cases hst : summary_text.isEmpty
  · by_cases huq : user_queries.isEmpty
    · simp [store_embeddings, storeMessageEmbeddings, deleteEmbeddingsFor, DBSession.commit,
        hst, huq, filter_ne_idem]
    · rcases hb with rfl | ⟨es, hes⟩
      · simp at huq
      · have hall : ∀ r ∈ (user_queries.zip es).map
            (fun p => MsgEmbRow.mk cid p.1.1 (p.1.2.1.take 500) p.2 p.1.2.2),
            r.conversation_id = cid := by
          intro r hr
          rcases List.mem_map.mp hr with ⟨p, _, rfl⟩
          rfl
        simp [store_embeddings, storeMessageEmbeddings, deleteEmbeddingsFor, DBSession.commit,
          hst, huq, hes, filter_ne_idem,
          filter_ne_append MsgEmbRow.conversation_id cid s.current.msgEmbeddings _ hall]
        intro a x x1 x2 x3 _ h2
        subst h2
        rfl
  · rcases hs with rfl | ⟨e, he⟩
    · simp at hst
    · have hall1 : ∀ r ∈ [ConvEmbRow.mk cid (summary_text.take 500) e],
          r.conversation_id = cid := by
        intro r hr
        rw [List.mem_singleton] at hr
        subst hr
        rfl
      by_cases huq : user_queries.isEmpty
      · simp [store_embeddings, storeMessageEmbeddings, deleteEmbeddingsFor, DBSession.commit,
          hst, huq, he, filter_ne_idem,
          filter_ne_append ConvEmbRow.conversation_id cid s.current.convEmbeddings _ hall1]
      · rcases hb with rfl | ⟨es, hes⟩
        · simp at huq
        · have hall : ∀ r ∈ (user_queries.zip es).map
              (fun p => MsgEmbRow.mk cid p.1.1 (p.1.2.1.take 500) p.2 p.1.2.2),
              r.conversation_id = cid := by
            intro r hr
            rcases List.mem_map.mp hr with ⟨p, _, rfl⟩
            rfl
          simp [store_embeddings, storeMessageEmbeddings, deleteEmbeddingsFor, DBSession.commit,
            hst, huq, he, hes, filter_ne_idem,
            filter_ne_append MsgEmbRow.conversation_id cid s.current.msgEmbeddings _ hall,
            filter_ne_append ConvEmbRow.conversation_id cid s.current.convEmbeddings _ hall1]
          intro a x x1 x2 x3 _ h2
          subst h2
          rfl

/-- Shifting the count accumulator out of the sync fold. -/
theorem foldl_count_shift {β : Type} (g : DBSession → β → Nat × DBSession) (l : List β) :
    ∀ (n : Nat) (s : DBSession),
      l.foldl (fun acc inp => (acc.1 + (g acc.2 inp).1, (g acc.2 inp).2)) (n, s) =
        (n + (l.foldl (fun acc inp => (acc.1 + (g acc.2 inp).1, (g acc.2 inp).2)) (0, s)).1,
         (l.foldl (fun acc inp => (acc.1 + (g acc.2 inp).1, (g acc.2 inp).2)) (0, s)).2) := by
  induction l with
  | nil => intro n s; simp
  | cons a t ih =>
    intro n s
    simp only [List.foldl_cons]
    rw [ih (n + (g s a).1) (g s a).2, ih (0 + (g s a).1) (g s a).2]
    simp [Nat.add_assoc]

/-- One step of the local sync loop, unfolded. -/
theorem sync_local_cons (svc : EmbeddingService) (now : Nat) (storage_path : PyStr)
    (inp : LocalSessionInput) (rest : List LocalSessionInput) (s : DBSession) :
    sync_local_sessions svc now storage_path (some (inp :: rest)) s =
      ((processLocalSession svc now storage_path s inp).1 +
        (sync_local_sessions svc now storage_path (some rest)
          (processLocalSession svc now storage_path s inp).2).1,
       (sync_local_sessions svc now storage_path (some rest)
          (processLocalSession svc now storage_path s inp).2).2) := by
  simp only [sync_local_sessions, List.foldl_cons, Nat.zero_add]
  exact foldl_count_shift _ rest _ _

/-- One step of the web sync loop, unfolded. -/
theorem sync_web_cons (svc : EmbeddingService) (now : Nat) (storage_path : PyStr)
    (inp : WebSessionInput) (rest : List WebSessionInput) (limit : Nat) (s : DBSession) :
    sync_web_sessions svc now storage_path (some (inp :: rest)) (limit + 1) s =
      ((processWebSession svc now storage_path s inp).1 +
        (sync_web_sessions svc now storage_path (some rest) limit
          (processWebSession svc now storage_path s inp).2).1,
       (sync_web_sessions svc now storage_path (some rest) limit
          (processWebSession svc now storage_path s inp).2).2) := by
  simp only [sync_web_sessions, List.take_succ_cons, List.foldl_cons, Nat.zero_add]
  exact foldl_count_shift _ _ _ _

/-- A pre-commit failure of the local loop body: `parse_session_file` raised,
or the session needs an update and the render or the database update raised
before the conversation commit. -/
def precommitFailLocal (s : DBSession) (inp : LocalSessionInput) : Prop :=
  inp.parsed = none ∨
    ∃ sd, inp.parsed = some sd ∧
      needs_update (findConv s.current inp.session_id) sd = true ∧
      (inp.renderOk = false ∨ inp.upsertOk = false)

/-- A pre-commit failure of the web loop body (the session id must be present
and non-empty, otherwise the body merely skips). -/
def precommitFailWeb (s : DBSession) (inp : WebSessionInput) : Prop :=
  ∃ sid, inp.session_id = some sid ∧ sid ≠ [] ∧
    (inp.fetched = none ∨
      ∃ sd, inp.fetched = some sd ∧
        needs_update (findConv s.current sid) sd = true ∧
        (inp.renderOk = false ∨ inp.upsertOk = false))

/-- A failing local loop body rolls back and contributes nothing. -/
theorem processLocal_fail (svc : EmbeddingService) (now : Nat) (storage_path : PyStr)
    (s : DBSession) (inp : LocalSessionInput) (h : precommitFailLocal s inp) :
    processLocalSession svc now storage_path s inp = (0, s.rollback) := by
  rcases h with hp | ⟨sd, hp, hn, hro⟩
  · simp [processLocalSession, hp]
  · rcases hro with hr | hu
    · simp [processLocalSession, hp, hn, hr]
    · cases hrv : inp.renderOk
      · simp [processLocalSession, hp, hn, hrv]
      · simp [processLocalSession, hp, hn, hrv, hu, DBSession.rollback]

/-- A failing web loop body rolls back and contributes nothing. -/
theorem processWeb_fail (svc : EmbeddingService) (now : Nat) (storage_path : PyStr)
    (s : DBSession) (inp : WebSessionInput) (h : precommitFailWeb s inp) :
    processWebSession svc now storage_path s inp = (0, s.rollback) := by
  rcases h with ⟨sid, hsid, hne, hf | ⟨sd, hf, hn, hro⟩⟩
  · simp [processWebSession, hsid, hne, hf]
  · rcases hro with hr | hu
    · simp [processWebSession, hsid, hne, hf, hn, hr]
    · cases hrv : inp.renderOk
      · simp [processWebSession, hsid, hne, hf, hn, hrv]
      · simp [processWebSession, hsid, hne, hf, hn, hrv, hu, DBSession.rollback]

/-- C6: the per-session sync loops isolate pre-commit failures.  If processing
a session raises at a pre-commit step (parse/fetch, render, or the database
update), that session's uncommitted changes are rolled back (the committed
store — in particular its `Conversation` row — is unchanged), the session
contributes nothing to the updated-count, and the loop proceeds with the rest
of the batch; the sync functions are total, never raising for a partial
failure. -/
theorem sync_precommit_failure_isolated
    (svc : EmbeddingService) (now : Nat) (storage_path : PyStr) (s : DBSession) :
    (∀ (inp : LocalSessionInput) (rest : List LocalSessionInput),
      precommitFailLocal s inp →
        processLocalSession svc now storage_path s inp = (0, s.rollback) ∧
        (processLocalSession svc now storage_path s inp).2.committed = s.committed ∧
        sync_local_sessions svc now storage_path (some (inp :: rest)) s =
          sync_local_sessions svc now storage_path (some rest) s.rollback) ∧
    (∀ (inp : WebSessionInput) (rest : List WebSessionInput) (limit : Nat),
      precommitFailWeb s inp →
        processWebSession svc now storage_path s inp = (0, s.rollback) ∧
        (processWebSession svc now storage_path s inp).2.committed = s.committed ∧
        sync_web_sessions svc now storage_path (some (inp :: rest)) (limit + 1) s =
          sync_web_sessions svc now storage_path (some rest) limit s.rollback) := by
  constructor
  · intro inp rest h
    have hstep := processLocal_fail svc now storage_path s inp h
    refine ⟨hstep, by rw [hstep]; rfl, ?_⟩
    rw [sync_local_cons, hstep]
    simp
  · intro inp rest limit h
    have hstep := processWeb_fail svc now storage_path s inp h
    refine ⟨hstep, by rw [hstep]; rfl, ?_⟩
    rw [sync_web_cons, hstep]
    simp

/-- Encoder for witnesses: always succeeds. -/
def svcOkW : EmbeddingService :=
  ⟨fun _ => some [], fun ts => some (ts.map fun _ => [])⟩

/-- Empty database session for witnesses. -/
def emptyDBW : DBSession := ⟨⟨[], [], [], 1⟩, ⟨[], [], [], 1⟩⟩

/-- Witness for C6: a local session whose parse raises and a web session whose
fetch raises are both rolled back and contribute nothing. -/
theorem sync_precommit_failure_isolated_witness :
    processLocalSession svcOkW 0 [] emptyDBW
        (LocalSessionInput.mk ['a'] none none true true) = (0, emptyDBW.rollback) ∧
    processWebSession svcOkW 0 [] emptyDBW
        (WebSessionInput.mk (some ['b']) none true true) = (0, emptyDBW.rollback) := by
  refine ⟨((sync_precommit_failure_isolated svcOkW 0 [] emptyDBW).1
            (LocalSessionInput.mk ['a'] none none true true) [] (Or.inl rfl)).1,
          ((sync_precommit_failure_isolated svcOkW 0 [] emptyDBW).2
            (WebSessionInput.mk (some ['b']) none true true) [] 0
            ⟨['b'], rfl, by decide, Or.inl rfl⟩).1⟩

/-- `store_embeddings` never touches the `conversations` table: when it starts
from a freshly committed session, the committed conversations after the call
(also after a raised encoder exception) are the ones it started from. -/
theorem store_embeddings_committed_conversations
    (svc : EmbeddingService) (cid : Nat) (summary_text : PyStr)
    (user_queries : List (Nat × PyStr × Nat)) (s : DBSession)
    (h : s.committed.conversations = s.current.conversations) :
    (store_embeddings svc cid summary_text user_queries s).1.committed.conversations =
      s.current.conversations := by
  by_cases hst : summary_text.isEmpty
  · by_cases huq : user_queries.isEmpty
    · simp [store_embeddings, storeMessageEmbeddings, deleteEmbeddingsFor,
        DBSession.commit, hst, huq]
    · cases hbb : svc.encode_batch (user_queries.map fun q => q.2.1) <;>
        simp [store_embeddings, storeMessageEmbeddings, deleteEmbeddingsFor,
          DBSession.commit, hst, huq, hbb, h]
  · cases hbs : svc.encode_single summary_text
    · simp [store_embeddings, storeMessageEmbeddings, deleteEmbeddingsFor,
        DBSession.commit, hst, hbs, h]
    · by_cases huq : user_queries.isEmpty
      · simp [store_embeddings, storeMessageEmbeddings, deleteEmbeddingsFor,
          DBSession.commit, hst, hbs, huq]
      · cases hbb : svc.encode_batch (user_queries.map fun q => q.2.1) <;>
          simp [store_embeddings, storeMessageEmbeddings, deleteEmbeddingsFor,
            DBSession.commit, hst, hbs, huq, hbb, h]

/-- C7: an embedding-generation failure is handled separately from the rest of
the per-session pipeline: when the conversation upsert has been committed and
`store_embeddings` then raises, the loop body catches the exception without
rolling back the committed conversation update, still counts the session in the
updated-count, and the loop proceeds with the rest of the batch. -/
theorem sync_embedding_failure_counted
    (svc : EmbeddingService) (now : Nat) (storage_path : PyStr) (s : DBSession) :
    (∀ (inp : LocalSessionInput) (rest : List LocalSessionInput) (sd : SessionData),
      inp.parsed = some sd →
      needs_update (findConv s.current inp.session_id) sd = true →
      inp.renderOk = true →
      inp.upsertOk = true →
      (localEmbedStep svc now storage_path s inp sd).2 = true →
        processLocalSession svc now storage_path s inp =
          (1, (localEmbedStep svc now storage_path s inp sd).1) ∧
        (localEmbedStep svc now storage_path s inp sd).1.committed.conversations =
          (localUpsert now storage_path s inp sd).1.conversations ∧
        sync_local_sessions svc now storage_path (some (inp :: rest)) s =
          (1 + (sync_local_sessions svc now storage_path (some rest)
              (localEmbedStep svc now storage_path s inp sd).1).1,
           (sync_local_sessions svc now storage_path (some rest)
              (localEmbedStep svc now storage_path s inp sd).1).2)) ∧
    (∀ (inp : WebSessionInput) (rest : List WebSessionInput) (sid : PyStr)
        (sd : SessionData),
      inp.session_id = some sid →
      sid ≠ [] →
      inp.fetched = some sd →
      needs_update (findConv s.current sid) sd = true →
      inp.renderOk = true →
      inp.upsertOk = true →
      (webEmbedStep svc now storage_path s sid sd).2 = true →
        processWebSession svc now storage_path s inp =
          (1, (webEmbedStep svc now storage_path s sid sd).1) ∧
        (webEmbedStep svc now storage_path s sid sd).1.committed.conversations =
          (webUpsert now storage_path s sid sd).1.conversations ∧
        ∀ (limit : Nat),
          sync_web_sessions svc now storage_path (some (inp :: rest)) (limit + 1) s =
            (1 + (sync_web_sessions svc now storage_path (some rest) limit
                (webEmbedStep svc now storage_path s sid sd).1).1,
             (sync_web_sessions svc now storage_path (some rest) limit
                (webEmbedStep svc now storage_path s sid sd).1).2)) := by
  constructor
  · intro inp rest sd hp hn hr hu _
    have hstep : processLocalSession svc now storage_path s inp =
        (1, (localEmbedStep svc now storage_path s inp sd).1) := by
      simp [processLocalSession, hp, hn, hr, hu]
    refine ⟨hstep, ?_, ?_⟩
    · exact store_embeddings_committed_conversations svc _ _ _ _ rfl
    · rw [sync_local_cons, hstep]
  · intro inp rest sid sd hsid hne hf hn hr hu _
    have hstep : processWebSession svc now storage_path s inp =
        (1, (webEmbedStep svc now storage_path s sid sd).1) := by
      simp [processWebSession, hsid, hne, hf, hn, hr, hu]
    refine ⟨hstep, ?_, ?_⟩
    · exact store_embeddings_committed_conversations svc _ _ _ _ rfl
    · intro limit
      rw [sync_web_cons, hstep]

/-- Encoder for witnesses: always raises. -/
def svcFailW : EmbeddingService := ⟨fun _ => none, fun _ => none⟩

/-- A local session input whose parse and render succeed. -/
def inpLocalW : LocalSessionInput :=
  LocalSessionInput.mk ['a'] (some ['x']) (some (SessionData.mk [Logline.mk (PyContent.str ['h', 'i'])])) true true

/-- A web session input whose fetch and render succeed. -/
def inpWebW : WebSessionInput :=
  WebSessionInput.mk (some ['b']) (some (SessionData.mk [Logline.mk (PyContent.str ['h'])])) true true

/-- Witness for C7: with an encoder that raises, the committed conversation
update survives and both loop bodies still count the session. -/
theorem sync_embedding_failure_counted_witness :
    processLocalSession svcFailW 0 [] emptyDBW inpLocalW =
      (1, (localEmbedStep svcFailW 0 [] emptyDBW inpLocalW
        (SessionData.mk [Logline.mk (PyContent.str ['h', 'i'])])).1) ∧
    processWebSession svcFailW 0 [] emptyDBW inpWebW =
      (1, (webEmbedStep svcFailW 0 [] emptyDBW ['b']
        (SessionData.mk [Logline.mk (PyContent.str ['h'])])).1) := by
  refine ⟨((sync_embedding_failure_counted svcFailW 0 [] emptyDBW).1 inpLocalW []
            (SessionData.mk [Logline.mk (PyContent.str ['h', 'i'])])
            rfl (by decide) rfl rfl (by decide)).1,
          ((sync_embedding_failure_counted svcFailW 0 [] emptyDBW).2 inpWebW [] ['b']
            (SessionData.mk [Logline.mk (PyContent.str ['h'])])
            rfl (by decide) rfl (by decide) rfl rfl (by decide)).1⟩

/-- Encoder that raises on batches of two or more texts (e.g. resource
exhaustion on a large batch) and succeeds otherwise. -/
def svcBatchFailW : EmbeddingService :=
  ⟨fun _ => some [1], fun ts => if 2 ≤ ts.length then none else some (ts.map fun _ => [1])⟩

/-- Prior committed store: conversation 1 (session `a`, one logline) with its
summary embedding and one message embedding. -/
def dbBugW : DBState :=
  ⟨[ConversationRow.mk 1 ['a'] Source.local 0 1 [] none 0],
   [ConvEmbRow.mk 1 ['o'] [1]],
   [MsgEmbRow.mk 1 0 ['o'] [1] 1],
   2⟩

/-- Session `a` grew to two eligible messages: its update is needed and its
`store_embeddings` call raises in `encode_batch` after the deletes and the
summary insert. -/
def inpBugA : LocalSessionInput :=
  LocalSessionInput.mk ['a'] (some ['n', 'a'])
    (some (SessionData.mk [Logline.mk (PyContent.str ['q', '1']),
                           Logline.mk (PyContent.str ['q', '2'])])) true true

/-- A fresh session `b` processed next; its commit publishes whatever is
pending in the shared session. -/
def inpBugB : LocalSessionInput :=
  LocalSessionInput.mk ['b'] (some ['s', 'b'])
    (some (SessionData.mk [Logline.mk (PyContent.str ['q', 'b'])])) true true

/-- C1 exhibits a bug: `store_embeddings` is not atomic in the sync loop.  The
embedding `except` handler (sync loop lines 215–216 / 331–332) does not roll
back, so after `encode_batch` raises for conversation 1 the pending deletes and
the new summary insert stay in the open transaction, and the commit performed
while processing the next session publishes them: conversation 1 ends with a
new summary and zero message rows, although before the run it had a summary and
a message row — a partial insert and a bare delete became visible, which the
claim rules out. -/
theorem sync_bare_delete_committed :
    ((sync_local_sessions svcBatchFailW 7 [] (some [inpBugA, inpBugB])
        ⟨dbBugW, dbBugW⟩).2.committed.msgEmbeddings.filter
      fun m => m.conversation_id = 1) = [] ∧
    ((sync_local_sessions svcBatchFailW 7 [] (some [inpBugA, inpBugB])
        ⟨dbBugW, dbBugW⟩).2.committed.convEmbeddings.filter
      fun m => m.conversation_id = 1) = [ConvEmbRow.mk 1 ['n', 'a'] [1]] ∧
    (dbBugW.msgEmbeddings.filter fun m => m.conversation_id = 1) =
      [MsgEmbRow.mk 1 0 ['o'] [1] 1] ∧
    (dbBugW.convEmbeddings.filter fun m => m.conversation_id = 1) =
      [ConvEmbRow.mk 1 ['o'] [1]] ∧
    (store_embeddings svcBatchFailW 1 ['n', 'a']
      (extract_user_queries (SessionData.mk [Logline.mk (PyContent.str ['q', '1']),
        Logline.mk (PyContent.str ['q', '2'])]) 5) ⟨dbBugW, dbBugW⟩).2 = true := by
  decide

instance : IsTotal SearchResult (fun a b => b.similarity ≤ a.similarity) :=
  ⟨fun a b => (le_total a.similarity b.similarity).symm⟩

instance : IsTrans SearchResult (fun a b => b.similarity ≤ a.similarity) :=
  ⟨fun _ _ _ hab hbc => le_trans hbc hab⟩

/-- C5: for every query and limit `N`, a successful `search_transcripts` call
returns at most `N` results, sorted non-increasing by similarity; every
`message` result carries a non-null page number and message index and every
`summary` result carries null for both; and each sub-query is independently
bounded at `N` candidates before the merged list is truncated to `N` again. -/
theorem search_transcripts_limit_sorted_fields
    (svc : EmbeddingService) (dist : Vec → Vec → ℚ) (db : DBState) (query : PyStr)
    (limit : Nat) (rs : List SearchResult)
    (h : search_transcripts svc dist db query limit = some rs) :
    rs.length ≤ limit ∧
    List.Sorted (fun a b => b.similarity ≤ a.similarity) rs ∧
    (∀ r ∈ rs,
      (r.match_type = MatchType.message →
        r.page_number ≠ none ∧ r.message_index ≠ none) ∧
      (r.match_type = MatchType.summary →
        r.page_number = none ∧ r.message_index = none)) ∧
    (∀ qe, (convSubquery dist db qe limit).length ≤ limit ∧
           (msgSubquery dist db qe limit).length ≤ limit) := by
  rw [search_transcripts] at h
  rcases Option.map_eq_some'.mp h with ⟨qe, hqe, hrs⟩
  subst hrs
  refine ⟨List.length_take_le _ _, ?_, ?_, ?_⟩
  · exact List.Pairwise.sublist (List.take_sublist _ _)
      (List.sorted_insertionSort (fun a b : SearchResult => b.similarity ≤ a.similarity) _)
  · intro r hr
    have h1 : r ∈ List.insertionSort (fun a b => b.similarity ≤ a.similarity)
        (convSubquery dist db qe limit ++ msgSubquery dist db qe limit) :=
      List.mem_of_mem_take hr
    have h2 : r ∈ convSubquery dist db qe limit ++ msgSubquery dist db qe limit :=
      ((List.perm_insertionSort _ _).mem_iff).mp h1
    rcases List.mem_append.mp h2 with hc | hm
    · simp only [convSubquery, List.mem_map] at hc
      rcases hc with ⟨p, _, rfl⟩
      constructor
      · intro h'
        simp at h'
      · intro _
        exact ⟨rfl, rfl⟩
    · simp only [msgSubquery, List.mem_map] at hm
      rcases hm with ⟨p, _, rfl⟩
      constructor
      · intro _
        simp
      · intro h'
        simp at h'
  · intro qe2
    constructor
    · simp only [convSubquery, List.length_map]
      exact List.length_take_le _ _
    · simp only [msgSubquery, List.length_map]
      exact List.length_take_le _ _

/-- Witness for C5 at an empty store: the search succeeds, returns the empty
result list, and all bounds hold. -/
theorem search_transcripts_limit_sorted_fields_witness :
    ([] : List SearchResult).length ≤ 5 ∧
    List.Sorted (fun a b => b.similarity ≤ a.similarity) ([] : List SearchResult) ∧
    (∀ r ∈ ([] : List SearchResult),
      (r.match_type = MatchType.message →
        r.page_number ≠ none ∧ r.message_index ≠ none) ∧
      (r.match_type = MatchType.summary →
        r.page_number = none ∧ r.message_index = none)) ∧
    (∀ qe, (convSubquery (fun _ _ => 0) (DBState.mk [] [] [] 1) qe 5).length ≤ 5 ∧
           (msgSubquery (fun _ _ => 0) (DBState.mk [] [] [] 1) qe 5).length ≤ 5) :=
  search_transcripts_limit_sorted_fields svcOkW (fun _ _ => 0)
    (DBState.mk [] [] [] 1) [] 5 [] rfl

/-- Dot product of two vectors (over their common prefix). -/
def dotQ (v w : Vec) : ℚ := (List.zipWith (fun a b => a * b) v w).sum

/-- A vector's dot product with itself is non-negative. -/
theorem dotQ_self_nonneg (v : Vec) : 0 ≤ dotQ v v := by
  induction v with
  | nil => simp [dotQ]
  | cons a t ih =>
    simp only [dotQ, List.zipWith_cons_cons, List.sum_cons] at *
    nlinarith [mul_self_nonneg a]

/-- One induction step of Cauchy–Schwarz for dot products. -/
theorem cs_step (a b A B S : ℚ) (hA : 0 ≤ A) (hB : 0 ≤ B) (hS : S ^ 2 ≤ A * B) :
    (a * b + S) ^ 2 ≤ (a * a + A) * (b * b + B) := by
  rcases eq_or_lt_of_le hB with hB0 | hBpos
  · have hAB : A * B = 0 := by rw [← hB0]; ring
    have hS2 : S ^ 2 = 0 := le_antisymm (hS.trans_eq hAB) (sq_nonneg S)
    have hS0 : S = 0 := by
      exact (pow_eq_zero_iff two_ne_zero).mp hS2
    subst hS0
    nlinarith [mul_nonneg hA (mul_self_nonneg b), sq_nonneg (a * b)]
  · nlinarith [sq_nonneg (a * B - b * S), mul_nonneg (sq_nonneg b) (sub_nonneg.mpr hS),
      mul_nonneg (le_of_lt hBpos) (sub_nonneg.mpr hS)]

/-- Cauchy–Schwarz for the list dot product. -/
theorem dotQ_sq_le (v : Vec) : ∀ w : Vec, dotQ v w ^ 2 ≤ dotQ v v * dotQ w w := by
  induction v with
  | nil => intro w; simp [dotQ]
  | cons a t ih =>
    intro w
    cases w with
    | nil => simp [dotQ, mul_comm]
    | cons b u =>
      have hA := dotQ_self_nonneg t
      have hB := dotQ_self_nonneg u
      have hS := ih u
      simp only [dotQ, List.zipWith_cons_cons, List.sum_cons] at *
      exact cs_step a b _ _ _ hA hB hS

/-- The cosine distance computed by the pgvector operator in the two search
queries: one minus the cosine of the angle between the stored vector and the
query vector. -/
noncomputable def cosineDistance (v w : Vec) : ℝ :=
  1 - (dotQ v w : ℝ) / (Real.sqrt (dotQ v v) * Real.sqrt (dotQ w w))

/-- The similarity reported by `search_transcripts`:
`1 - (embedding <=> query)`. -/
noncomputable def searchSimilarity (v w : Vec) : ℝ := 1 - cosineDistance v w

/-- C9 counterexample: for the stored vector `[1]` and query vector `[-1]` the
similarity `1 - cosine_distance` is negative (namely `-1`), so it does not lie
in the range 0 to 1. -/
theorem searchSimilarity_not_nonneg :
    searchSimilarity [(1 : ℚ)] [(-1 : ℚ)] < 0 := by
  unfold searchSimilarity cosineDistance
  norm_num [dotQ, Real.sqrt_one]

/-- C9 amended: every similarity value `1 - cosine_distance(stored, query)`
lies in the range `-1` to `1` (cosine distance ranges over 0 to 2). -/
theorem searchSimilarity_range (v w : Vec) :
    -1 ≤ searchSimilarity v w ∧ searchSimilarity v w ≤ 1 := by
  have hA : (0 : ℝ) ≤ (dotQ v v : ℚ) := by exact_mod_cast dotQ_self_nonneg v
  have hcs : ((dotQ v w : ℚ) : ℝ) ^ 2 ≤ ((dotQ v v : ℚ) : ℝ) * ((dotQ w w : ℚ) : ℝ) := by
    exact_mod_cast dotQ_sq_le v w
  have hsim : searchSimilarity v w =
      ((dotQ v w : ℚ) : ℝ) / (Real.sqrt (dotQ v v) * Real.sqrt (dotQ w w)) := by
    unfold searchSimilarity cosineDistance
    ring
  have hdnn : 0 ≤ Real.sqrt (dotQ v v) * Real.sqrt (dotQ w w) :=
    mul_nonneg (Real.sqrt_nonneg _) (Real.sqrt_nonneg _)
  have habs : |((dotQ v w : ℚ) : ℝ)| ≤ Real.sqrt (dotQ v v) * Real.sqrt (dotQ w w) := by
    calc |((dotQ v w : ℚ) : ℝ)| = Real.sqrt (((dotQ v w : ℚ) : ℝ) ^ 2) :=
          (Real.sqrt_sq_eq_abs _).symm
      _ ≤ Real.sqrt (((dotQ v v : ℚ) : ℝ) * ((dotQ w w : ℚ) : ℝ)) := Real.sqrt_le_sqrt hcs
      _ = Real.sqrt (dotQ v v) * Real.sqrt (dotQ w w) := Real.sqrt_mul hA _
  rw [hsim]
  rcases eq_or_lt_of_le hdnn with h0 | hpos
  · rw [← h0, div_zero]
    norm_num
  · constructor
    · rw [le_div_iff₀ hpos]
      have := (abs_le.mp habs).1
      linarith
    · rw [div_le_one hpos]
      exact (abs_le.mp habs).2

/-- Witness for C3: one user query against the empty store yields exactly one
message row for the conversation, and the call does not raise. -/
theorem store_embeddings_row_counts_witness :
    (store_embeddings svcOkW 1 ['x'] [(0, ['q'], 1)] emptyDBW).2 = false ∧
    ((store_embeddings svcOkW 1 ['x'] [(0, ['q'], 1)] emptyDBW).1.committed.msgEmbeddings.filter
        fun m => m.conversation_id = 1).length = 1 ∧
    ((['x'] : PyStr) = [] →
      ((store_embeddings svcOkW 1 ['x'] [(0, ['q'], 1)] emptyDBW).1.committed.convEmbeddings.filter
        fun m => m.conversation_id = 1) = []) :=
  store_embeddings_row_counts svcOkW 1 ['x'] [(0, ['q'], 1)] emptyDBW [[]]
    (Or.inr ⟨[], rfl⟩) rfl rfl

/-- Witness for C8: re-running the successful call of the C3 witness leaves the
session unchanged. -/
theorem store_embeddings_idempotent_witness :
    store_embeddings svcOkW 1 ['x'] [(0, ['q'], 1)]
        (store_embeddings svcOkW 1 ['x'] [(0, ['q'], 1)] emptyDBW).1 =
      store_embeddings svcOkW 1 ['x'] [(0, ['q'], 1)] emptyDBW :=
  store_embeddings_idempotent svcOkW 1 ['x'] [(0, ['q'], 1)] emptyDBW
    (Or.inr ⟨[], rfl⟩) (Or.inr ⟨[[]], rfl⟩)
